import Mathlib

/-!
Verification development for the Deputy timesheet synchronization pipeline
(`Code.js` / `Helper Functions.js`): a shallow embedding of the data model,
the paged fetch loop, the row normalizer and the incremental sink writer,
together with proofs of the specified properties.

Modelling conventions:
* JS numbers that only ever hold integers (record ids, Unix seconds) are
  embedded as `Nat` / `Int`; fractional monetary/hour values as `Rat`.
* Absent JS object fields are embedded as `Option`; absent strings as `""`
  (JS treats both `undefined` and `""` as falsy in every guard the code uses).
* The external spreadsheet sink is a `List (List Cell)` of rows; `getLastRow`
  is its length, reading an out-of-range cell yields the empty cell, and a
  bulk `setValues` starting at `getLastRow + 1` is list append.
* The remote endpoint is an oracle `Nat -> FetchResult` from the `start`
  offset of a query (the only varying part of the request payload; `max` is
  the fixed constant 500) to the response outcome.
* The while-loops of the script are embedded with explicit fuel; the fuel
  hypotheses of the theorems are discharged with the page count of the run.
-/

set_option maxRecDepth 4000

/-- A spreadsheet cell: the script writes either strings or numbers. -/
inductive Cell where
  | s (v : String)
  | n (v : Rat)
deriving DecidableEq

/-- JS truthiness of a cell value, as used by the guard
if (values[i][0]) in getExistingDeputyIDsFromSheet: the empty string and
the number 0 are falsy. -/
def cellTruthy : Cell → Bool
  | Cell.s v => v ≠ ""
  | Cell.n v => v ≠ 0

/-- JS .toString() on a cell value.  String cells are returned unchanged.
For the numeric cells the script itself never reads back (the key column it
scans holds the id strings it wrote), integral values render like JS; the
non-integral rendering is a documented approximation of JS float printing. -/
def cellToString : Cell → String
  | Cell.s v => v
  | Cell.n v => if v.den = 1 then toString v.num else toString v

/-- One entry of the Slots array of a regular-shift timesheet. -/
structure Slot where
  strType : String
  strTypeName : String
  intUnixStart : Option Int
  intUnixEnd : Option Int
deriving DecidableEq

/-- The joined EmployeeObject of a timesheet. -/
structure Employee where
  Id : Nat
  DisplayName : String
deriving DecidableEq

/-- OperationalUnitInfo nested inside the _DPMetaData envelope. -/
structure OperationalUnitInfo where
  OperationalUnitName : String
  CompanyName : String
deriving DecidableEq

/-- The _DPMetaData envelope of a timesheet record. -/
structure DPMetaData where
  OperationalUnitInfo : Option OperationalUnitInfo
deriving DecidableEq

/-- A fetched Deputy timesheet record, with exactly the fields the script
reads (Code.js lines 143-177). -/
structure Timesheet where
  Id : Nat
  IsLeave : Bool
  LeaveRule : Option Nat
  EmployeeObject : Option Employee
  Date : String
  StartTimeLocalized : String
  EndTimeLocalized : String
  Slots : Option (List Slot)
  TotalTime : Option Rat
  Cost : Option Rat
  EmployeeComment : Option String
  SupervisorComment : Option String
  DPMetaData : Option DPMetaData
deriving DecidableEq

/-- Outcome of one UrlFetchApp.fetch of the QUERY endpoint:
a 200 response parsing to an array, a 200 response that is not an array,
a non-200 status, or a thrown exception. -/
inductive FetchResult where
  | ok (records : List Timesheet)
  | notArray
  | httpError (code : Nat) (body : String)
  | exn
deriving DecidableEq

/-- JS String.prototype.padStart(2, the zero digit). -/
def padStart2 (s : String) : String :=
  if s.length ≥ 2 then s else String.mk (List.replicate (2 - s.length) '0') ++ s

/-- Embeds formatDurationFromSeconds (Helper Functions.js): hours by floor
division, minutes from the truncating JS remainder, seconds likewise
(Math.round is the identity on the integral second counts the script
produces).  The null/undefined/NaN guard cannot fire on an Int input. -/
def formatDurationFromSeconds (totalSeconds : Int) : String :=
  let hours := Int.fdiv totalSeconds 3600
  let minutes := Int.fdiv (Int.tmod totalSeconds 3600) 60
  let seconds := Int.tmod totalSeconds 60
  toString hours ++ ":" ++ padStart2 (toString minutes) ++ ":" ++ padStart2 (toString seconds)

/-- Embeds calculateMealbreakDurationInSeconds (Helper Functions.js):
a missing or non-array Slots value contributes 0; otherwise the forEach
accumulates end minus start over the slots that are typed B, named
Meal Break, and carry numeric start and end. -/
def calculateMealbreakDurationInSeconds (slotsArray : Option (List Slot)) : Int :=
  match slotsArray with
  | none => 0
  | some slots =>
    slots.foldl (fun acc slot =>
      match slot.intUnixEnd, slot.intUnixStart with
      | some e, some s =>
        if slot.strType = "B" ∧ slot.strTypeName = "Meal Break" then acc + (e - s) else acc
      | _, _ => acc) 0

/-- Spec-side description of the mealbreak contribution of one slot, for the
refinement proof of the mealbreak claim: the duration of a meal-break slot,
nothing for every other slot. -/
def mealSlotDuration (slot : Slot) : Option Int :=
  match slot.intUnixEnd, slot.intUnixStart with
  | some e, some s =>
    if slot.strType = "B" ∧ slot.strTypeName = "Meal Break" then some (e - s) else none
  | _, _ => none

/-- JS String.prototype.split with a one-character separator, on char lists:
splitting the empty string yields one empty part. -/
def splitOnChar (c : Char) : List Char → List (List Char)
  | [] => [[]]
  | x :: xs =>
    if x = c then [] :: splitOnChar c xs
    else
      match splitOnChar c xs with
      | [] => [[x]]
      | y :: ys => (x :: y) :: ys

/-- Core of formatApiTimeToSheetTime (Helper Functions.js lines 291-305),
on char lists: an empty input yields the empty string; otherwise the string
is split on T when it contains T and on a space otherwise, and the first 8
characters of the second part are returned when that part is nonempty. -/
def formatTimeCore (s : List Char) : List Char :=
  if s = [] then []
  else
    let separator := if 'T' ∈ s then 'T' else ' '
    match splitOnChar separator s with
    | _ :: p1 :: _ => if p1 = [] then [] else p1.take 8
    | _ => []

/-- Embeds formatApiTimeToSheetTime (the variant at Helper Functions.js
lines 291-305, which accepts both the T-separated and the space-separated
form; the other bundled variant splits on T only). -/
def formatApiTimeToSheetTime (apiTimeStr : String) : String :=
  String.mk (formatTimeCore apiTimeStr.data)

/-- Embeds formatApiDateToSheetDate: the empty string maps to itself, and a
date-bearing timestamp YYYY-MM-DD... is rendered MM/DD/YYYY.  The source
delegates the rendering to the platform call Utilities.formatDate in the
script timezone; this model reads the calendar date directly off the
leading YYYY-MM-DD characters, which coincides with the platform call when
the script timezone matches the timestamp offset.  No claim depends on
this field. -/
def formatApiDateToSheetDate (apiDateStr : String) : String :=
  if apiDateStr = "" then ""
  else
    String.mk ((apiDateStr.data.drop 5).take 2) ++ "/" ++
    String.mk ((apiDateStr.data.drop 8).take 2) ++ "/" ++
    String.mk (apiDateStr.data.take 4)

/-- Embeds lookupLeaveRuleName: a falsy rule id yields the empty string, a
mapped truthy name is returned, anything else yields the placeholder.  The
JS object map is embedded as an association list keyed by rule id. -/
def lookupLeaveRuleName (leaveRuleId : Nat) (leaveRuleMap : List (Nat × String)) : String :=
  if leaveRuleId = 0 then ""
  else
    match leaveRuleMap.find? (fun p => p.1 == leaveRuleId) with
    | some p => if p.2 = "" then "Unknown Rule ID (" ++ toString leaveRuleId ++ ")" else p.2
    | none => "Unknown Rule ID (" ++ toString leaveRuleId ++ ")"

/-- JS Date.prototype.getDay for a calendar day given as a day count since
1970-01-01 (which was a Thursday, day 4): 0 = Sunday .. 6 = Saturday. -/
def jsDayOfWeek (n : Int) : Int :=
  (n + 4) % 7

/-- Civil calendar date (year, month, day) from a day count since
1970-01-01, by the standard Gregorian conversion.  Used only to render the
computed day numbers the way the JS Date accessors would. -/
def civilFromDays (z0 : Int) : Int × Nat × Nat :=
  let z := z0 + 719468
  let era := Int.fdiv z 146097
  let doe := z - era * 146097
  let yoe := Int.fdiv (doe - Int.fdiv doe 1460 + Int.fdiv doe 36524 - Int.fdiv doe 146096) 365
  let y := yoe + era * 400
  let doy := doe - (365 * yoe + Int.fdiv yoe 4 - Int.fdiv yoe 100)
  let mp := Int.fdiv (5 * doy + 2) 153
  let d := doy - Int.fdiv (153 * mp + 2) 5 + 1
  let m := mp + (if mp < 10 then 3 else -9)
  ((if m ≤ 2 then y + 1 else y), m.toNat, d.toNat)

/-- Embeds the isoFormat arrow function of getPreviousPayPeriodDates:
getFullYear unpadded, month and day zero-padded to two digits. -/
def isoFormat (c : Int × Nat × Nat) : String :=
  toString c.1 ++ "-" ++ padStart2 (toString c.2.1) ++ "-" ++ padStart2 (toString c.2.2)

/-- Embeds getPreviousPayPeriodDates (the variant at Helper Functions.js
lines 337-362, which subtracts the run day-of-week; the other bundled
variant subtracts a fixed 3 days).  The run date is a calendar day count
since 1970-01-01; JS setDate arithmetic normalizes through month
boundaries, i.e. it is day-count subtraction. -/
def getPreviousPayPeriodDates (scriptRunDate : Int) : String × String :=
  let dayOfWeek := jsDayOfWeek scriptRunDate
  let payPeriodEndDate := scriptRunDate - dayOfWeek
  let payPeriodStartDate := payPeriodEndDate - 13
  (isoFormat (civilFromDays payPeriodStartDate), isoFormat (civilFromDays payPeriodEndDate))

/-- Embeds getExistingDeputyIDsFromSheet (Helper Functions.js lines
367-379): fewer than two rows yields the empty set; otherwise every truthy
cell of the id column from row 2 to the last row contributes its string
form.  The JS Set is embedded as the insertion-order list of added strings;
the script only tests membership. -/
def getExistingDeputyIDsFromSheet (sheet : List (List Cell)) (idColumnIndex : Nat) : List String :=
  if sheet.length < 2 then []
  else
    ((sheet.drop 1).map (fun row => row.getD idColumnIndex (Cell.s ""))).foldl
      (fun ids c => if cellTruthy c then ids ++ [cellToString c] else ids) []

/-- The header schema of Code.js lines 135-138. -/
def sheetHeaders : List String :=
  ["TimeSheet ID", "Employee Export Code", "Employee Name", "Date", "Start", "End",
   "Mealbreak", "Total Hours", "Total Cost", "Employee Comment", "Area Name",
   "Location Name", "Leave", "Manager's Comment"]

/-- Embeds checkAndWriteHeaderRow: the header row is appended exactly when
the sheet has zero rows; otherwise the sheet is returned unchanged (the
nonempty branch of the longer bundled variant only logs warnings). -/
def checkAndWriteHeaderRow (sheet : List (List Cell)) (expectedHeaders : List String) : List (List Cell) :=
  if sheet.length = 0 then sheet ++ [expectedHeaders.map Cell.s] else sheet

/-- The leave-type cell of Code.js lines 150-155: a leave record with a
truthy LeaveRule id is resolved through the leave-rule map, a leave record
without one gets the fixed placeholder, a regular shift gets the empty
string. -/
def leaveTypeNameOf (leaveRuleMap : List (Nat × String)) (ts : Timesheet) : String :=
  if ts.IsLeave then
    match ts.LeaveRule with
    | some r => if r ≠ 0 then lookupLeaveRuleName r leaveRuleMap else "Leave (Rule ID Missing)"
    | none => "Leave (Rule ID Missing)"
  else ""

/-- The 14-cell output row built for one timesheet record
(Code.js lines 161-177). -/
def rowData (leaveRuleMap : List (Nat × String)) (ts : Timesheet) : List Cell :=
  let employeeObject := ts.EmployeeObject
  let operationalUnitInfo := ts.DPMetaData.bind (fun d => d.OperationalUnitInfo)
  [Cell.s (toString ts.Id),
   Cell.s (match employeeObject with
           | some e => if e.Id ≠ 0 then toString e.Id else ""
           | none => ""),
   Cell.s ((employeeObject.map (fun e => e.DisplayName)).getD ""),
   Cell.s (formatApiDateToSheetDate ts.Date),
   Cell.s (formatApiTimeToSheetTime ts.StartTimeLocalized),
   Cell.s (formatApiTimeToSheetTime ts.EndTimeLocalized),
   Cell.s (formatDurationFromSeconds (calculateMealbreakDurationInSeconds ts.Slots)),
   Cell.n (ts.TotalTime.getD 0),
   Cell.n (ts.Cost.getD 0),
   Cell.s (ts.EmployeeComment.getD ""),
   Cell.s ((operationalUnitInfo.map (fun u => u.OperationalUnitName)).getD ""),
   Cell.s ((operationalUnitInfo.map (fun u => u.CompanyName)).getD ""),
   Cell.s (leaveTypeNameOf leaveRuleMap ts),
   Cell.s (ts.SupervisorComment.getD "")]

/-- The dedup-and-collect loop of Code.js lines 143-179: a record whose
stringified id is already among the existing sheet ids is skipped, every
other record contributes its output row, in order. -/
def buildRows (leaveRuleMap : List (Nat × String)) (existing : List String)
    (tss : List Timesheet) : List (List Cell) :=
  tss.foldl (fun acc ts =>
    if existing.contains (toString ts.Id) then acc
    else acc ++ [rowData leaveRuleMap ts]) []

/-- The constant MAX_RECORDS_PER_CALL of Code.js line 53. -/
def MAX_RECORDS_PER_CALL : Nat := 500

/-- The paged fetch while-loop of Code.js lines 58-111, with explicit fuel.
Arguments: the remote oracle, remaining fuel, the current start offset, the
accumulated records.  Returns the accumulated records and whether the loop
stopped on an error (non-200 status or exception); a short page and a
non-array 200 body stop it without the error flag. -/
def fetchLoopGo (server : Nat → FetchResult) : Nat → Nat → List Timesheet →
    List Timesheet × Bool
  | 0, _, acc => (acc, false)
  | Nat.succ fuel, start, acc =>
    match server start with
    | FetchResult.ok page =>
      if page.length < MAX_RECORDS_PER_CALL then (acc ++ page, false)
      else fetchLoopGo server fuel (start + page.length) (acc ++ page)
    | FetchResult.notArray => (acc, false)
    | FetchResult.httpError _ _ => (acc, true)
    | FetchResult.exn => (acc, true)

/-- The timesheet fetch of one run: the paged loop started at offset 0 with
an empty accumulator. -/
def fetchAllTimesheets (server : Nat → FetchResult) (fuel : Nat) : List Timesheet × Bool :=
  fetchLoopGo server fuel 0 []

/-- The server returns, at the successive offsets the loop queries starting
from the given one, exactly these pages: every page but the last is full
(length MAX_RECORDS_PER_CALL) and the last is short. -/
inductive PagesAt (server : Nat → FetchResult) : Nat → List (List Timesheet) → Prop where
  | last (start : Nat) (p : List Timesheet) :
      server start = FetchResult.ok p → p.length < MAX_RECORDS_PER_CALL →
      PagesAt server start [p]
  | cons (start : Nat) (p : List Timesheet) (ps : List (List Timesheet)) :
      server start = FetchResult.ok p → p.length = MAX_RECORDS_PER_CALL →
      PagesAt server (start + MAX_RECORDS_PER_CALL) ps →
      PagesAt server start (p :: ps)

/-- Whether a fetch outcome is the error kind that emails the admin:
a non-200 status or a thrown exception. -/
def isFailureResult : FetchResult → Bool
  | FetchResult.httpError _ _ => true
  | FetchResult.exn => true
  | _ => false

/-- The server returns these full pages at the successive offsets the loop
queries starting from the given one, and then fails (non-200 or exception)
at the next offset. -/
inductive PagesThenFail (server : Nat → FetchResult) : Nat → List (List Timesheet) → Prop where
  | fail (start : Nat) :
      isFailureResult (server start) = true → PagesThenFail server start []
  | cons (start : Nat) (p : List Timesheet) (ps : List (List Timesheet)) :
      server start = FetchResult.ok p → p.length = MAX_RECORDS_PER_CALL →
      PagesThenFail server (start + MAX_RECORDS_PER_CALL) ps →
      PagesThenFail server start (p :: ps)

/-- The sheet-affecting behaviour of one run of mainDataFetchAndProcess
(Code.js lines 51-194): fetch all pages; when zero records were fetched the
run returns before touching the sheet (at line 114 the loop flag is false
on every exit path, so the guard there is just the zero-length test);
otherwise the existing ids are read, the header is ensured, the surviving
rows are built and bulk-appended after the current last row. -/
def runMain (server : Nat → FetchResult) (fuel : Nat) (idColumnIndex : Nat)
    (leaveRuleMap : List (Nat × String)) (sheet : List (List Cell)) : List (List Cell) :=
  let allApiTimesheets := (fetchAllTimesheets server fuel).1
  if allApiTimesheets.length = 0 then sheet
  else
    let existing := getExistingDeputyIDsFromSheet sheet idColumnIndex
    let sheet1 := checkAndWriteHeaderRow sheet sheetHeaders
    let rowsToAppend := buildRows leaveRuleMap existing allApiTimesheets
    if 0 < rowsToAppend.length then sheet1 ++ rowsToAppend else sheet1

/-- Ordering of timesheet records by id, used by the record merger. -/
def tsLE (x y : Timesheet) : Prop := x.Id ≤ y.Id

instance : DecidableRel tsLE := fun x y => inferInstanceAs (Decidable (x.Id ≤ y.Id))

instance : IsTotal Timesheet tsLE := ⟨fun x y => Nat.le_total x.Id y.Id⟩

instance : IsTrans Timesheet tsLE := ⟨fun _ _ _ h1 h2 => Nat.le_trans h1 h2⟩

/-- Modelled from the spec: one insertion into the mapping keyed by record
id that the Record Merger builds — the merge component issuing two
approval-filter queries is described in the spec but absent from the
source, which issues a single TimeApprover query.  A record whose id is
already present replaces the stored record in place (later insertion wins,
insertion order kept, as for a JS object key); a new id is appended. -/
def upsert (m : List Timesheet) (t : Timesheet) : List Timesheet :=
  if m.any (fun r => r.Id == t.Id) then m.map (fun r => if r.Id == t.Id then t else r)
  else m ++ [t]

/-- Modelled from the spec: the Record Merger — union the two fetch results
into the id-keyed mapping, then emit the records sorted ascending by id. -/
def mergeRecords (a b : List Timesheet) : List Timesheet :=
  List.insertionSort tsLE ((a ++ b).foldl upsert [])

/-- One leavePayLines sub-record of a leave record (spec data model). -/
structure LeavePayLine where
  timesheetId : Nat
  startTime : String
  endTime : String
  hours : Rat
deriving DecidableEq

/-- The fallback aggregate at the leave-object level (spec data model). -/
structure LeaveAggregate where
  startTime : String
  endTime : String
  totalHours : Rat
  comment : String
deriving DecidableEq

/-- The part of a leave record (isLeave true) that the leave start/end/hours
resolution reads (spec data model). -/
structure LeaveRecordShape where
  id : Nat
  leavePayLines : List LeavePayLine
  leave : LeaveAggregate
  totalTimeHours : Rat
deriving DecidableEq

/-- Modelled from the spec: the Row Normalizer's leave start/end/hours
resolution — absent from the source, whose row builder reads
StartTimeLocalized and TotalTime uniformly for both record kinds.  Tier 1:
the leavePayLines entry whose timesheetId equals the record's own id;
tier 2: the leave object's own aggregate; tier 3: when the hours are still
zero, the parent record's totalTimeHours. -/
def resolveLeaveTimes (rec : LeaveRecordShape) : String × String × Rat :=
  let base :=
    match rec.leavePayLines.find? (fun pl => pl.timesheetId == rec.id) with
    | some pl => (pl.startTime, pl.endTime, pl.hours)
    | none => (rec.leave.startTime, rec.leave.endTime, rec.leave.totalHours)
  (base.1, base.2.1, if base.2.2 = 0 then rec.totalTimeHours else base.2.2)

/-- A minimal timesheet record with the given id, used by the concrete
scenarios below. -/
def mkTs (id : Nat) : Timesheet :=
  { Id := id, IsLeave := false, LeaveRule := none, EmployeeObject := none,
    Date := "", StartTimeLocalized := "", EndTimeLocalized := "", Slots := none,
    TotalTime := none, Cost := none, EmployeeComment := none,
    SupervisorComment := none, DPMetaData := none }

/-- A remote returning pages of sizes 500, 500 and 137. -/
def serverThreePages : Nat → FetchResult := fun start =>
  if start = 0 then FetchResult.ok (List.replicate 500 (mkTs 1))
  else if start = 500 then FetchResult.ok (List.replicate 500 (mkTs 2))
  else FetchResult.ok (List.replicate 137 (mkTs 3))

/-- A remote with zero total results. -/
def serverNoRecords : Nat → FetchResult := fun _ => FetchResult.ok []

/-- A remote whose first page is full and whose second request fails with a
non-success status. -/
def serverFailSecondPage : Nat → FetchResult := fun start =>
  if start = 0 then FetchResult.ok (List.replicate 500 (mkTs 1))
  else FetchResult.httpError 500 "Internal Server Error"

/-- A remote whose very first request throws. -/
def serverFailFirstPage : Nat → FetchResult := fun _ => FetchResult.exn

/-- A remote returning the single short page of candidate ids 10, 11, 12. -/
def serverSmallBatch : Nat → FetchResult := fun _ =>
  FetchResult.ok [mkTs 10, mkTs 11, mkTs 12]

/-- A sink already holding the header row and the key strings 10 and 11. -/
def sheetWithKeys : List (List Cell) :=
  [sheetHeaders.map Cell.s, [Cell.s "10"], [Cell.s "11"]]

/-- A leave record with no matching leavePayLines entry and a zero aggregate
hours value. -/
def leaveRecNoPayLines : LeaveRecordShape :=
  { id := 77, leavePayLines := [],
    leave := { startTime := "", endTime := "", totalHours := 0, comment := "" },
    totalTimeHours := 8 }

/-- The meal-break slot of the mealbreak example: type B, name Meal Break,
Unix seconds 1000 to 1900. -/
def slotMealExample : Slot :=
  { strType := "B", strTypeName := "Meal Break",
    intUnixStart := some 1000, intUnixEnd := some 1900 }

/-- The work slot of the mealbreak example: type W, Unix seconds 0 to 1000. -/
def slotWorkExample : Slot :=
  { strType := "W", strTypeName := "Work",
    intUnixStart := some 0, intUnixEnd := some 1000 }

theorem mealbreak_foldl_eq (slots : List Slot) : ∀ acc : Int,
    slots.foldl (fun acc slot =>
      match slot.intUnixEnd, slot.intUnixStart with
      | some e, some s =>
        if slot.strType = "B" ∧ slot.strTypeName = "Meal Break" then acc + (e - s) else acc
      | _, _ => acc) acc
    = acc + (slots.filterMap mealSlotDuration).sum := by
  induction slots with
  | nil => intro acc; simp
  | cons slot slots ih =>
    intro acc
    rw [List.foldl_cons, List.filterMap_cons]
    cases he : slot.intUnixEnd with
    | none => simp only [mealSlotDuration, he]; exact ih acc
    | some e =>
      cases hs : slot.intUnixStart with
      | none => simp only [mealSlotDuration, he, hs]; exact ih acc
      | some s =>
        by_cases hb : slot.strType = "B" ∧ slot.strTypeName = "Meal Break"
        · simp only [mealSlotDuration, he, hs, if_pos hb]
          rw [ih (acc + (e - s))]
          simp [add_assoc]
        · simp only [mealSlotDuration, he, hs, if_neg hb]
          exact ih acc

/-- C7: the Mealbreak duration of a record equals the sum of end minus
start over exactly the meal-break slots of its Slots sequence (every other
slot is ignored), and the example slots B (Meal Break, 1000 to 1900) and
W (0 to 1000) render as 0:15:00 in the H:MM:SS format with unpadded hours
and zero-padded minutes and seconds. -/
theorem mealbreak_sums_meal_slots :
    (∀ slots : List Slot,
      calculateMealbreakDurationInSeconds (some slots)
        = (slots.filterMap mealSlotDuration).sum)
    ∧ formatDurationFromSeconds
        (calculateMealbreakDurationInSeconds (some [slotMealExample, slotWorkExample]))
        = "0:15:00" := by
  constructor
  · intro slots
    show slots.foldl _ 0 = _
    rw [mealbreak_foldl_eq]
    simp
  · decide

/-- C9: the header-ensuring operation writes the header row exactly when
the sink has zero rows; a non-empty sink is returned completely unchanged
(row 1 and all other rows), the longer source variant only logging
warnings in that branch. -/
theorem header_written_iff_sheet_empty (sheet : List (List Cell)) (hdrs : List String) :
    (sheet = [] → checkAndWriteHeaderRow sheet hdrs = [hdrs.map Cell.s])
    ∧ (sheet ≠ [] → checkAndWriteHeaderRow sheet hdrs = sheet) := by
  constructor
  · intro h; subst h; rfl
  · intro h
    unfold checkAndWriteHeaderRow
    rw [if_neg (by simpa [List.length_eq_zero] using h)]

theorem header_written_iff_sheet_empty_witness :
    checkAndWriteHeaderRow [] sheetHeaders = [sheetHeaders.map Cell.s]
    ∧ checkAndWriteHeaderRow sheetWithKeys sheetHeaders = sheetWithKeys :=
  ⟨(header_written_iff_sheet_empty [] sheetHeaders).1 rfl,
   (header_written_iff_sheet_empty sheetWithKeys sheetHeaders).2 (by decide)⟩

/-- C10: a run whose timesheet fetch yields zero records returns before
opening the sink: no header row is written even when the sink is empty, no
data rows are appended, and the sink state is unchanged. -/
theorem zero_records_leave_sheet_unchanged (server : Nat → FetchResult)
    (fuel idColumnIndex : Nat) (leaveRuleMap : List (Nat × String))
    (sheet : List (List Cell)) (h : (fetchAllTimesheets server fuel).1 = []) :
    runMain server fuel idColumnIndex leaveRuleMap sheet = sheet := by
  unfold runMain
  simp [h]

theorem zero_records_leave_sheet_unchanged_witness :
    runMain serverNoRecords 1 0 [] [] = []
    ∧ runMain serverNoRecords 1 0 [] sheetWithKeys = sheetWithKeys :=
  ⟨zero_records_leave_sheet_unchanged serverNoRecords 1 0 [] [] (by decide),
   zero_records_leave_sheet_unchanged serverNoRecords 1 0 [] sheetWithKeys (by decide)⟩

/-- C4: for every injected run day the pay-period window has its end on
the day obtained by subtracting the JS day-of-week (0 = Sunday) from the
run day — the most recent Sunday on or before the run day — and its start
13 days earlier, both rendered as ISO YYYY-MM-DD; the span is always 13
days, and in particular the Wednesday 2025-06-11 (day 20250) yields the
window 2025-05-26 to 2025-06-08.  Determinism for repeated calls with the
same day is immediate: the embedding is a pure function of the day. -/
theorem pay_period_window_correct (n : Int) :
    getPreviousPayPeriodDates n =
      (isoFormat (civilFromDays (n - jsDayOfWeek n - 13)),
       isoFormat (civilFromDays (n - jsDayOfWeek n)))
    ∧ jsDayOfWeek (n - jsDayOfWeek n) = 0
    ∧ n - jsDayOfWeek n ≤ n
    ∧ n - (n - jsDayOfWeek n) < 7
    ∧ (n - jsDayOfWeek n) - (n - jsDayOfWeek n - 13) = 13
    ∧ getPreviousPayPeriodDates 20250 = ("2025-05-26", "2025-06-08") := by
  refine ⟨rfl, ?_, ?_, ?_, by ring, by decide⟩
  · unfold jsDayOfWeek; omega
  · unfold jsDayOfWeek; omega
  · unfold jsDayOfWeek; omega

theorem splitOnChar_of_not_mem (c : Char) :
    ∀ l : List Char, c ∉ l → splitOnChar c l = [l] := by
  intro l
  induction l with
  | nil => intro _; rfl
  | cons x xs ih =>
    intro h
    have hx : ¬ x = c := fun e => h (e ▸ List.mem_cons_self x xs)
    have hxs : c ∉ xs := fun m => h (List.mem_cons_of_mem _ m)
    simp [splitOnChar, hx, ih hxs]

theorem splitOnChar_append (c : Char) :
    ∀ (d t : List Char), c ∉ d → splitOnChar c (d ++ c :: t) = d :: splitOnChar c t := by
  intro d
  induction d with
  | nil => intro t _; simp [splitOnChar]
  | cons x xs ih =>
    intro t h
    have hx : ¬ x = c := fun e => h (e ▸ List.mem_cons_self x xs)
    have hxs : c ∉ xs := fun m => h (List.mem_cons_of_mem _ m)
    have hrec := ih t hxs
    simp only [List.cons_append, splitOnChar, hx, if_false, List.append_eq, hrec]

/-- C8: on a non-empty timestamp carrying a time after the separator,
whether T-separated or space-separated, the time formatter returns exactly
the first 8 characters after the separator, and on the empty (absent)
input it returns the empty string. -/
theorem time_formatter_extracts_time (d t : List Char)
    (h1 : 'T' ∉ d) (h2 : 'T' ∉ t) (h3 : ' ' ∉ d) (h4 : ' ' ∉ t) (h5 : t ≠ []) :
    formatApiTimeToSheetTime (String.mk (d ++ 'T' :: t)) = String.mk (t.take 8)
    ∧ formatApiTimeToSheetTime (String.mk (d ++ ' ' :: t)) = String.mk (t.take 8)
    ∧ formatApiTimeToSheetTime "" = "" := by
  refine ⟨?_, ?_, rfl⟩
  · show String.mk (formatTimeCore (d ++ 'T' :: t)) = _
    have hne : ¬ (d ++ 'T' :: t = []) := by simp
    have hmem : 'T' ∈ d ++ 'T' :: t := by simp
    rw [formatTimeCore, if_neg hne]
    simp only [hmem, if_true, if_pos]
    rw [splitOnChar_append 'T' d t h1, splitOnChar_of_not_mem 'T' t h2]
    simp [h5]
  · show String.mk (formatTimeCore (d ++ ' ' :: t)) = _
    have hne : ¬ (d ++ ' ' :: t = []) := by simp
    have hmem : ¬ ('T' ∈ d ++ ' ' :: t) := by
      intro hm
      rcases List.mem_append.mp hm with hd | ht
      · exact h1 hd
      · rcases List.mem_cons.mp ht with he | ht2
        · exact absurd he (by decide)
        · exact h2 ht2
    rw [formatTimeCore, if_neg hne]
    simp only [hmem, if_false, if_neg]
    rw [splitOnChar_append ' ' d t h3, splitOnChar_of_not_mem ' ' t h4]
    simp [h5]

theorem time_formatter_extracts_time_witness :
    formatApiTimeToSheetTime "2025-05-21T06:43:00-04:00" = "06:43:00"
    ∧ formatApiTimeToSheetTime "2025-02-19 09:00:00" = "09:00:00" := by
  constructor
  · have h := (time_formatter_extracts_time "2025-05-21".data "06:43:00-04:00".data
      (by decide) (by decide) (by decide) (by decide) (by decide)).1
    have e1 : String.mk ("2025-05-21".data ++ 'T' :: "06:43:00-04:00".data)
        = "2025-05-21T06:43:00-04:00" := by decide
    have e2 : String.mk ("06:43:00-04:00".data.take 8) = "06:43:00" := by decide
    rw [e1, e2] at h
    exact h
  · have h := (time_formatter_extracts_time "2025-02-19".data "09:00:00".data
      (by decide) (by decide) (by decide) (by decide) (by decide)).2.1
    have e1 : String.mk ("2025-02-19".data ++ ' ' :: "09:00:00".data)
        = "2025-02-19 09:00:00" := by decide
    have e2 : String.mk ("09:00:00".data.take 8) = "09:00:00" := by decide
    rw [e1, e2] at h
    exact h

theorem fetchLoopGo_pagesAt (server : Nat → FetchResult) {start : Nat}
    {ps : List (List Timesheet)} (h : PagesAt server start ps) :
    ∀ (fuel : Nat), ps.length ≤ fuel → ∀ acc : List Timesheet,
      fetchLoopGo server fuel start acc = (acc ++ ps.flatten, false) := by
  induction h with
  | last s p hok hshort =>
    intro fuel hf acc
    cases fuel with
    | zero => simp at hf
    | succ fuel =>
      simp [fetchLoopGo, hok, hshort]
  | cons s p ps hok hfull hps ih =>
    intro fuel hf acc
    cases fuel with
    | zero => simp at hf
    | succ fuel =>
      have hnlt : ¬ p.length < MAX_RECORDS_PER_CALL := by rw [hfull]; exact lt_irrefl _
      simp only [fetchLoopGo, hok]
      rw [if_neg hnlt, hfull]
      rw [ih fuel (by simpa using Nat.le_of_succ_le_succ hf) (acc ++ p)]
      simp

/-- C3: the paged fetch starts at offset 0 with the fixed max of 500,
advances the offset by the number of records received, stops exactly at the
first short page, and accumulates the concatenation of all pages; pages of
sizes 500, 500 and 137 yield exactly 1137 records and a zero-result fetch
is tolerated. -/
theorem pagination_accumulates_all_pages (server : Nat → FetchResult)
    (ps : List (List Timesheet)) (fuel : Nat)
    (h : PagesAt server 0 ps) (hf : ps.length ≤ fuel) :
    fetchAllTimesheets server fuel = (ps.flatten, false) := by
  unfold fetchAllTimesheets
  simpa using fetchLoopGo_pagesAt server h fuel hf []

theorem pagination_accumulates_all_pages_witness :
    (fetchAllTimesheets serverThreePages 3).1.length = 1137
    ∧ fetchAllTimesheets serverNoRecords 1 = ([], false) := by
  have hpa : PagesAt serverThreePages 0
      [List.replicate 500 (mkTs 1), List.replicate 500 (mkTs 2), List.replicate 137 (mkTs 3)] := by
    refine PagesAt.cons 0 _ _ rfl (by simp [MAX_RECORDS_PER_CALL]) ?_
    refine PagesAt.cons 500 _ _ rfl (by simp [MAX_RECORDS_PER_CALL]) ?_
    exact PagesAt.last 1000 _ rfl (by simp [MAX_RECORDS_PER_CALL])
  have h3 := pagination_accumulates_all_pages serverThreePages _ 3 hpa (by simp)
  have hpa0 : PagesAt serverNoRecords 0 [[]] :=
    PagesAt.last 0 [] rfl (by simp [MAX_RECORDS_PER_CALL])
  have h0 := pagination_accumulates_all_pages serverNoRecords [[]] 1 hpa0 (by simp)
  constructor
  · rw [h3]; simp
  · simpa using h0

theorem buildRows_eq (leaveRuleMap : List (Nat × String)) (existing : List String) :
    ∀ (tss : List Timesheet) (acc : List (List Cell)),
      tss.foldl (fun acc ts =>
        if existing.contains (toString ts.Id) then acc
        else acc ++ [rowData leaveRuleMap ts]) acc
      = acc ++ (tss.filter
          (fun ts => !(existing.contains (toString ts.Id)))).map (rowData leaveRuleMap) := by
  intro tss
  induction tss with
  | nil => intro acc; simp
  | cons ts tss ih =>
    intro acc
    rw [List.foldl_cons, List.filter_cons]
    cases hb : existing.contains (toString ts.Id) with
    | true =>
      rw [if_pos rfl, Bool.not_true, if_neg Bool.false_ne_true]
      exact ih acc
    | false =>
      rw [if_neg Bool.false_ne_true, Bool.not_false, if_pos rfl]
      rw [ih (acc ++ [rowData leaveRuleMap ts])]
      rw [List.map_cons, List.append_assoc, List.singleton_append]

theorem filter_true_of_replicate {α : Type} (p : α → Bool) (n : Nat) (a : α)
    (h : p a = true) : (List.replicate n a).filter p = List.replicate n a :=
  List.filter_eq_self.mpr (fun b hb => by rw [List.eq_of_mem_replicate hb]; exact h)

theorem fetchLoopGo_pagesThenFail (server : Nat → FetchResult) {start : Nat}
    {ps : List (List Timesheet)} (h : PagesThenFail server start ps) :
    ∀ (fuel : Nat), ps.length + 1 ≤ fuel → ∀ acc : List Timesheet,
      fetchLoopGo server fuel start acc = (acc ++ ps.flatten, true) := by
  induction h with
  | fail s hfail =>
    intro fuel hf acc
    cases fuel with
    | zero => simp at hf
    | succ fuel =>
      cases hsv : server s with
      | ok page => rw [hsv] at hfail; simp [isFailureResult] at hfail
      | notArray => rw [hsv] at hfail; simp [isFailureResult] at hfail
      | httpError c b => simp [fetchLoopGo, hsv]
      | exn => simp [fetchLoopGo, hsv]
  | cons s p ps hok hfull hps ih =>
    intro fuel hf acc
    cases fuel with
    | zero => simp at hf
    | succ fuel =>
      have hnlt : ¬ p.length < MAX_RECORDS_PER_CALL := by rw [hfull]; exact lt_irrefl _
      simp only [fetchLoopGo, hok]
      rw [if_neg hnlt, hfull]
      rw [ih fuel (by simpa using Nat.le_of_succ_le_succ hf) (acc ++ p)]
      simp

/-- C1: appendNewRows behaviour — the rows appended are exactly those whose
stringified primary-key field is not a member of the existing-key set read
from the sink's key column skipping the header row, a row being skipped
precisely when its key is a member; in particular with existing keys 10 and
11 and candidate ids 10, 11 and 12 exactly the row with id 12 is appended. -/
theorem append_filters_existing_keys :
    (∀ (leaveRuleMap : List (Nat × String)) (existing : List String) (tss : List Timesheet),
       buildRows leaveRuleMap existing tss
         = (tss.filter
             (fun ts => !(existing.contains (toString ts.Id)))).map (rowData leaveRuleMap))
    ∧ getExistingDeputyIDsFromSheet sheetWithKeys 0 = ["10", "11"]
    ∧ runMain serverSmallBatch 1 0 [] sheetWithKeys = sheetWithKeys ++ [rowData [] (mkTs 12)]
    ∧ (rowData [] (mkTs 12)).head? = some (Cell.s "12") := by
  refine ⟨?_, by decide, by decide, by decide⟩
  intro m ex tss
  unfold buildRows
  simpa using buildRows_eq m ex tss []

/-- C5 counterexample: on the remote whose first page is full (500 records)
and whose second page request fails with status 500, the fetch contributes
500 records, not zero, and those records are passed on to downstream
processing — a run over an empty sink ends with the header row plus the 500
rows built from the pre-failure page. -/
theorem partial_pages_reach_sheet :
    (fetchAllTimesheets serverFailSecondPage 2).1.length = 500
    ∧ (fetchAllTimesheets serverFailSecondPage 2).2 = true
    ∧ runMain serverFailSecondPage 2 0 [] []
        = [sheetHeaders.map Cell.s] ++ List.replicate 500 (rowData [] (mkTs 1)) := by
  have hpf : PagesThenFail serverFailSecondPage 0 [List.replicate 500 (mkTs 1)] := by
    refine PagesThenFail.cons 0 _ _ rfl (by simp [MAX_RECORDS_PER_CALL]) ?_
    exact PagesThenFail.fail 500 rfl
  have hfetch : fetchAllTimesheets serverFailSecondPage 2 = (List.replicate 500 (mkTs 1), true) := by
    unfold fetchAllTimesheets
    simpa using fetchLoopGo_pagesThenFail serverFailSecondPage hpf 2 (by simp) []
  have hrows : buildRows [] [] (List.replicate 500 (mkTs 1))
      = List.replicate 500 (rowData [] (mkTs 1)) := by
    unfold buildRows
    rw [buildRows_eq, filter_true_of_replicate _ 500 (mkTs 1) rfl, List.map_replicate]
    simp
  refine ⟨by rw [hfetch]; simp, by rw [hfetch], ?_⟩
  unfold runMain
  rw [hfetch]
  simp only [List.length_replicate]
  rw [if_neg (by decide)]
  show checkAndWriteHeaderRow [] sheetHeaders ++ buildRows [] (getExistingDeputyIDsFromSheet [] 0) (List.replicate 500 (mkTs 1)) = _
  have hex : getExistingDeputyIDsFromSheet [] 0 = [] := rfl
  rw [hex, hrows]
  rfl

/-- C5 amended: a timesheet fetch in which a page request fails with a
non-success status or a transport exception stops at the failure without
crashing the run, keeps the records of the pages received before the
failure, and passes them on to downstream processing; only a fetch whose
first page request fails contributes zero records. -/
theorem failed_fetch_keeps_prior_pages (server : Nat → FetchResult)
    (ps : List (List Timesheet)) (fuel : Nat)
    (h : PagesThenFail server 0 ps) (hf : ps.length + 1 ≤ fuel) :
    fetchAllTimesheets server fuel = (ps.flatten, true) := by
  unfold fetchAllTimesheets
  simpa using fetchLoopGo_pagesThenFail server h fuel hf []

theorem failed_fetch_keeps_prior_pages_witness :
    fetchAllTimesheets serverFailFirstPage 1 = ([], true)
    ∧ (fetchAllTimesheets serverFailSecondPage 2).1.length = 500 := by
  have h0 := failed_fetch_keeps_prior_pages serverFailFirstPage [] 1
    (PagesThenFail.fail 0 rfl) (by simp)
  have hpf : PagesThenFail serverFailSecondPage 0 [List.replicate 500 (mkTs 1)] := by
    refine PagesThenFail.cons 0 _ _ rfl (by simp [MAX_RECORDS_PER_CALL]) ?_
    exact PagesThenFail.fail 500 rfl
  have h1 := failed_fetch_keeps_prior_pages serverFailSecondPage _ 2 hpf (by simp)
  exact ⟨by simpa using h0, by rw [h1]; simp⟩

theorem upsert_ids_mem (m : List Timesheet) (t : Timesheet) (i : Nat) :
    i ∈ (upsert m t).map (fun r => r.Id)
      ↔ i ∈ m.map (fun r => r.Id) ∨ i = t.Id := by
  unfold upsert
  by_cases h : m.any (fun r => r.Id == t.Id) = true
  · rw [if_pos h]
    rw [List.any_eq_true] at h
    obtain ⟨w, hw, hweq⟩ := h
    rw [beq_iff_eq] at hweq
    simp only [List.mem_map]
    constructor
    · rintro ⟨a, ⟨r0, hr0, rfl⟩, rfl⟩
      by_cases hc : r0.Id = t.Id
      · right; simp [hc]
      · left; exact ⟨r0, hr0, by simp [hc]⟩
    · rintro (⟨r0, hr0, rfl⟩ | rfl)
      · by_cases hc : r0.Id = t.Id
        · exact ⟨t, ⟨r0, hr0, by simp [hc]⟩, hc.symm⟩
        · exact ⟨r0, ⟨r0, hr0, by simp [hc]⟩, rfl⟩
      · exact ⟨t, ⟨w, hw, by simp [hweq]⟩, rfl⟩
  · rw [if_neg h]
    rw [List.map_append]
    simp [List.mem_append, eq_comm]

theorem upsert_ids_nodup (m : List Timesheet) (t : Timesheet)
    (h : (m.map (fun r => r.Id)).Nodup) :
    ((upsert m t).map (fun r => r.Id)).Nodup := by
  unfold upsert
  by_cases hc : m.any (fun r => r.Id == t.Id) = true
  · rw [if_pos hc]
    have heq : (m.map (fun r => if r.Id == t.Id then t else r)).map (fun r => r.Id)
        = m.map (fun r => r.Id) := by
      rw [List.map_map]
      apply List.map_congr_left
      intro r _
      by_cases hr : r.Id = t.Id
      · simp [hr]
      · simp [hr]
    rw [heq]
    exact h
  · rw [if_neg hc]
    rw [List.map_append]
    have hna : t.Id ∉ m.map (fun r => r.Id) := by
      intro hmem
      apply hc
      rw [List.any_eq_true]
      obtain ⟨r, hr, hreq⟩ := List.mem_map.mp hmem
      exact ⟨r, hr, by simp [hreq]⟩
    simp [List.nodup_append, h, hna]

theorem foldl_upsert_ids_nodup :
    ∀ (l m : List Timesheet), (m.map (fun r => r.Id)).Nodup →
      ((l.foldl upsert m).map (fun r => r.Id)).Nodup := by
  intro l
  induction l with
  | nil => intro m h; simpa using h
  | cons t l ih => intro m h; exact ih (upsert m t) (upsert_ids_nodup m t h)

theorem foldl_upsert_ids_mem :
    ∀ (l m : List Timesheet) (i : Nat),
      i ∈ (l.foldl upsert m).map (fun r => r.Id)
        ↔ i ∈ m.map (fun r => r.Id) ∨ i ∈ l.map (fun r => r.Id) := by
  intro l
  induction l with
  | nil => intro m i; simp
  | cons t l ih =>
    intro m i
    rw [List.foldl_cons, ih (upsert m t) i]
    rw [upsert_ids_mem]
    rw [List.map_cons, List.mem_cons]
    tauto

/-- C2: the merged record sequence contains exactly one record per unique
id — its id list is duplicate-free and carries exactly the ids of the two
unioned fetch results — and is sorted ascending by id; in particular a
record with id 1 present in both fetch results collapses to the single
record with id 1. -/
theorem merge_dedups_by_id_and_sorts (a b : List Timesheet) :
    ((mergeRecords a b).map (fun r => r.Id)).Nodup
    ∧ (∀ i : Nat, i ∈ (mergeRecords a b).map (fun r => r.Id)
        ↔ i ∈ (a ++ b).map (fun r => r.Id))
    ∧ List.Sorted tsLE (mergeRecords a b)
    ∧ mergeRecords [mkTs 1] [mkTs 1] = [mkTs 1] := by
  have hperm : List.Perm (List.insertionSort tsLE ((a ++ b).foldl upsert []))
      ((a ++ b).foldl upsert []) := List.perm_insertionSort tsLE _
  refine ⟨?_, ?_, ?_, by decide⟩
  · unfold mergeRecords
    exact ((hperm.map (fun r => r.Id)).nodup_iff).mpr
      (foldl_upsert_ids_nodup (a ++ b) [] (by simp))
  · intro i
    unfold mergeRecords
    rw [(hperm.map (fun r => r.Id)).mem_iff, foldl_upsert_ids_mem]
    simp
  · unfold mergeRecords
    exact List.sorted_insertionSort tsLE _

/-- C6: the leave start/end/hours resolution follows the tiered order —
when a leavePayLines entry matches the record's own id its times and hours
are used, otherwise the leave object's own aggregate start/end, and when
the resolved hours are still zero the parent record's totalTimeHours; in
particular a leave record with no matching leavePayLines entry and zero
aggregate hours yields the parent's totalTimeHours. -/
theorem leave_times_fallback_chain (rec : LeaveRecordShape) :
    (∀ pl : LeavePayLine,
       rec.leavePayLines.find? (fun p => p.timesheetId == rec.id) = some pl →
       resolveLeaveTimes rec
         = (pl.startTime, pl.endTime,
            if pl.hours = 0 then rec.totalTimeHours else pl.hours))
    ∧ (rec.leavePayLines.find? (fun p => p.timesheetId == rec.id) = none →
       resolveLeaveTimes rec
         = (rec.leave.startTime, rec.leave.endTime,
            if rec.leave.totalHours = 0 then rec.totalTimeHours else rec.leave.totalHours))
    ∧ (rec.leavePayLines.find? (fun p => p.timesheetId == rec.id) = none →
       rec.leave.totalHours = 0 →
       (resolveLeaveTimes rec).2.2 = rec.totalTimeHours) := by
  refine ⟨?_, ?_, ?_⟩
  · intro pl hfind
    unfold resolveLeaveTimes
    rw [hfind]
  · intro hfind
    unfold resolveLeaveTimes
    rw [hfind]
  · intro hfind hzero
    unfold resolveLeaveTimes
    rw [hfind]
    simp [hzero]

theorem leave_times_fallback_chain_witness :
    resolveLeaveTimes leaveRecNoPayLines = ("", "", (8 : Rat)) := by
  have h := (leave_times_fallback_chain leaveRecNoPayLines).2.1 rfl
  simpa using h
